import Mathlib

/-!
Verification development for the Telegram bet-extraction pipeline of the
rpa-apostas-esportivas repository.

The development shallowly embeds, from the source:
  * src/telegram/parser.py  — BetData, MessageParser.parse_message, is_bet_message;
  * src/telegram/manager.py — TelegramManager normalization, callback dispatch and start;
  * src/telegram/monitor.py — TelegramMonitor.start credential check;
  * src/database/schemas.py — Bet.to_dict / Bet.from_dict.

The Python regular expressions used by the parser are embedded by a small
backtracking matcher over an explicit pattern AST whose candidate order follows
the Python engine (leftmost search position first; greedy repetition prefers
longer, lazy prefers shorter).  Python floats are modeled as exact decimal
fractions; datetimes are modeled by their ISO text.  All definitions are
executable, so concrete scenarios evaluate by kernel reduction.
-/

namespace Rpa

/-- Result of lowercasing a character, modeling str.lower on the ASCII range. -/
def lowerChar (c : Char) : Char := c.toLower

/-- Python regex class \s on the ASCII range. -/
def isPyWs (c : Char) : Bool :=
  c = ' ' || c = '\t' || c = '\n' || c = '\r' || c = '\x0b' || c = '\x0c'

/-- Characters the last-resort tier splits on: the regex class [\s,.]. -/
def isSplitChar (c : Char) : Bool := isPyWs c || c = ',' || c = '.'

/-- Drops leading characters satisfying p; helper for pyStrip. -/
def dropLeading (p : Char → Bool) : List Char → List Char := List.dropWhile p

/-- Python str.strip: remove leading and trailing whitespace. -/
def pyStrip (s : List Char) : List Char :=
  ((s.dropWhile isPyWs).reverse.dropWhile isPyWs).reverse

/-- Python str.split(":", 1)[1]: everything after the first colon. -/
def afterColon : List Char → List Char
  | [] => []
  | c :: t => if c = ':' then t else afterColon t

/-- Splits a character list at every character satisfying p, keeping empty
pieces, modeling re.split over a single-character class (and str.split for a
single separator character). -/
def splitOnPred (p : Char → Bool) : List Char → List (List Char)
  | [] => [[]]
  | c :: rest =>
    let r := splitOnPred p rest
    if p c then [] :: r
    else match r with
      | h :: t => (c :: h) :: t
      | [] => [[c]]

/-- Python " ".join on word lists. -/
def joinSpace : List (List Char) → List Char
  | [] => []
  | [w] => w
  | w :: ws => w ++ ' ' :: joinSpace ws

/-- Case-sensitive or case-insensitive literal prefix test; returns the rest of
the input on success. -/
def stripLit (ci : Bool) : List Char → List Char → Option (List Char)
  | [], s => some s
  | _ :: _, [] => none
  | a :: as, b :: bs =>
    if (if ci then lowerChar a = lowerChar b else a = b) then stripLit ci as bs
    else none

/-- Whether needle occurs as a contiguous substring of hay (Python: needle in hay). -/
def containsSub (hay needle : List Char) : Bool :=
  match stripLit false needle hay with
  | some _ => true
  | none =>
    match hay with
    | [] => false
    | _ :: t => containsSub t needle

/-- Value of a digit string read in base 10. -/
def digitsVal (l : List Char) : Nat :=
  l.foldl (fun n c => 10 * n + (c.toNat - '0'.toNat)) 0

/-- Shape of a capture of the regex fragment (\d+\.?\d*): one or more digits,
optionally followed by a dot and further digits. -/
def numShape (g : List Char) : Bool :=
  !(g.takeWhile Char.isDigit).isEmpty &&
    (match g.dropWhile Char.isDigit with
     | [] => true
     | c :: fs => c = '.' && fs.all Char.isDigit)

/-- A capture produced by the numeric group (\d+\.?\d*), together with the
proof that it has the digits-dot-digits shape. -/
def NumCap : Type := { g : List Char // numShape g = true }

/-- Result of Python float() on the numeric tokens this program extracts,
represented exactly as num / 10 ^ exp.  Decimal tokens are exactly
representable; the program never does arithmetic on the parsed floats and only
tests them against zero, which is a test on num, so the representation is kept
unreduced for cheap kernel evaluation. -/
structure PyFloat where
  num : Int
  exp : Nat
deriving DecidableEq, Repr

/-- The rational value of a parsed float. -/
def PyFloat.toRat (x : PyFloat) : Rat :=
  (x.num : Rat) / (10 : Rat) ^ x.exp

/-- Python float() restricted to the literal forms reachable in this program:
optional whitespace, optional sign, digits with an optional fractional part.
Exponents, inf and nan are not modeled; no regex capture in the program can
produce them. -/
def pyFloatMag (u : List Char) : Option PyFloat :=
  let ds := u.takeWhile Char.isDigit
  match u.dropWhile Char.isDigit with
  | [] => if ds.isEmpty then none else some ⟨(digitsVal ds : Int), 0⟩
  | c :: fs =>
    if c = '.' && fs.all Char.isDigit && !(ds.isEmpty && fs.isEmpty) then
      some ⟨(digitsVal ds * 10 ^ fs.length + digitsVal fs : Nat), fs.length⟩
    else none

/-- Python float() on a raw string: strip whitespace, read an optional sign,
then the magnitude.  Returns none where Python raises ValueError. -/
def parsePyFloat (s0 : List Char) : Option PyFloat :=
  match pyStrip s0 with
  | '+' :: r => pyFloatMag r
  | '-' :: r => (pyFloatMag r).map (fun q => ⟨-q.num, q.exp⟩)
  | t => pyFloatMag t

/-- Regex character classes appearing in the parser's patterns. -/
inductive CharCls where
  | ws        -- \s
  | digit     -- \d
  | dotAll    -- . with re.DOTALL
  | dotNoNL   -- . without re.DOTALL
deriving DecidableEq

/-- Membership in a character class. -/
def CharCls.mem : CharCls → Char → Bool
  | .ws, c => isPyWs c
  | .digit, c => c.isDigit
  | .dotAll, _ => true
  | .dotNoNL, c => c ≠ '\n'

/-- Pattern AST covering the regexes of parser.py.  All repetition operators in
those regexes apply to single-character classes, so repetition is only needed
over classes and the matcher stays structurally recursive. -/
inductive Re where
  | lit (ci : Bool) (s : List Char)   -- literal text, ci = compiled with IGNORECASE
  | cls (p : CharCls)                 -- one character from a class
  | starG (p : CharCls)               -- p*  greedy
  | starL (p : CharCls)               -- p*? lazy
  | plusG (p : CharCls)               -- p+  greedy
  | plusL (p : CharCls)               -- p+? lazy
  | quest (r : Re)                    -- (?:r)? greedy optional
  | cat (a b : Re)                    -- concatenation
  | alt (a b : Re)                    -- alternation, left first
  | grp (i : Nat) (r : Re)            -- capturing group over r
  | num (i : Nat)                     -- the capturing group (\d+\.?\d*)
  | eol                               -- $ without re.MULTILINE

/-- Captures recorded during a match: plain string groups and numeric groups. -/
structure Caps where
  strs : List (Nat × List Char)
  nums : List (Nat × NumCap)

def Caps.empty : Caps := ⟨[], []⟩

def Caps.addStr (c : Caps) (i : Nat) (g : List Char) : Caps :=
  ⟨(i, g) :: c.strs, c.nums⟩

def Caps.addNum (c : Caps) (i : Nat) (n : NumCap) : Caps :=
  ⟨c.strs, (i, n) :: c.nums⟩

/-- Looks up the most recent capture of string group i. -/
def capsStr (c : Caps) (i : Nat) : Option (List Char) :=
  (c.strs.find? (fun p => p.1 == i)).map Prod.snd

/-- Looks up the most recent capture of numeric group i. -/
def capsNum (c : Caps) (i : Nat) : Option NumCap :=
  (c.nums.find? (fun p => p.1 == i)).map Prod.snd

/-- Continuation used by the backtracking matcher. -/
abbrev MCont (α : Type) : Type := List Char → Caps → Option α

/-- First success over a list of candidates, in order. -/
def firstSome : List α → (α → Option β) → Option β
  | [], _ => none
  | a :: rest, f =>
    match f a with
    | some b => some b
    | none => firstSome rest f

/-- Counts hi, hi-1, ..., lo (empty when hi < lo): greedy candidate order. -/
def countsDesc (lo hi : Nat) : List Nat :=
  (List.range (hi + 1 - lo)).map (fun k => hi - k)

/-- Counts lo, lo+1, ..., hi (empty when hi < lo): lazy candidate order. -/
def countsAsc (lo hi : Nat) : List Nat :=
  (List.range (hi + 1 - lo)).map (fun k => lo + k)

/-- Length of the maximal run of class p at the front of s. -/
def runLen (p : CharCls) (s : List Char) : Nat :=
  (s.takeWhile p.mem).length

/-- Tries one candidate capture of the numeric group; the shape check always
succeeds for candidates produced by matchNum. -/
def tryNumCand (i : Nat) (g rest : List Char) (caps : Caps) (k : MCont α) : Option α :=
  if h : numShape g = true then k rest (caps.addNum i ⟨g, h⟩) else none

/-- Matches the group (\d+\.?\d*) in Python backtracking order: \d+ longest
first, then a dot if present (with \d* longest first), then no dot. -/
def matchNum (i : Nat) (s : List Char) (caps : Caps) (k : MCont α) : Option α :=
  let ds := s.takeWhile Char.isDigit
  firstSome (countsDesc 1 ds.length) (fun a =>
    let ip := s.take a
    let s1 := s.drop a
    let dotBranch : Option α :=
      match s1 with
      | '.' :: s2 =>
        let fs := s2.takeWhile Char.isDigit
        firstSome (countsDesc 0 fs.length) (fun b =>
          tryNumCand i (ip ++ '.' :: s2.take b) (s2.drop b) caps k)
      | _ => none
    match dotBranch with
    | some r => some r
    | none => tryNumCand i ip s1 caps k)

/-- Backtracking matcher in continuation style.  Candidate order follows the
Python regex engine; caps are threaded so that only captures on the accepted
path survive. -/
def matchRe : Re → List Char → Caps → MCont α → Option α
  | .lit ci l, s, caps, k =>
    match stripLit ci l s with
    | some rest => k rest caps
    | none => none
  | .cls p, s, caps, k =>
    match s with
    | [] => none
    | c :: rest => if p.mem c then k rest caps else none
  | .starG p, s, caps, k =>
    firstSome (countsDesc 0 (runLen p s)) (fun i => k (s.drop i) caps)
  | .starL p, s, caps, k =>
    firstSome (countsAsc 0 (runLen p s)) (fun i => k (s.drop i) caps)
  | .plusG p, s, caps, k =>
    firstSome (countsDesc 1 (runLen p s)) (fun i => k (s.drop i) caps)
  | .plusL p, s, caps, k =>
    firstSome (countsAsc 1 (runLen p s)) (fun i => k (s.drop i) caps)
  | .quest r, s, caps, k =>
    match matchRe r s caps k with
    | some res => some res
    | none => k s caps
  | .cat a b, s, caps, k =>
    matchRe a s caps (fun s2 c2 => matchRe b s2 c2 k)
  | .alt a b, s, caps, k =>
    match matchRe a s caps k with
    | some res => some res
    | none => matchRe b s caps k
  | .grp i r, s, caps, k =>
    matchRe r s caps (fun s2 c2 => k s2 (c2.addStr i (s.take (s.length - s2.length))))
  | .num i, s, caps, k => matchNum i s caps k
  | .eol, s, caps, k =>
    if s = [] || s = ['\n'] then k s caps else none

/-- Attempts a match anchored at the start of s, returning the captures and the
length of the unconsumed suffix. -/
def matchSpanAt (r : Re) (s : List Char) : Option (Caps × Nat) :=
  matchRe r s Caps.empty (fun rest caps => some (caps, rest.length))

/-- re.search: tries successive start positions left to right; returns the
absolute start, the captures and the absolute end of the first match. -/
def searchSpanAux (r : Re) : List Char → Nat → Option (Nat × Caps × Nat)
  | s, pos =>
    match matchSpanAt r s with
    | some (caps, rl) => some (pos, caps, pos + (s.length - rl))
    | none =>
      match s with
      | [] => none
      | _ :: t => searchSpanAux r t (pos + 1)

/-- re.search returning only the captures. -/
def searchTop (r : Re) (s : List Char) : Option Caps :=
  (searchSpanAux r s 0).map (fun x => x.2.1)

/-- re.finditer: non-overlapping matches scanned left to right.  The fuel is
bounded by the input length; every pattern it is used with consumes at least
one character per match. -/
def finditerAux (r : Re) : Nat → List Char → Nat → List (Nat × Caps × Nat)
  | 0, _, _ => []
  | fuel + 1, s, base =>
    match searchSpanAux r s base with
    | none => []
    | some (st, caps, en) =>
      if en ≤ base then []
      else (st, caps, en) :: finditerAux r fuel (s.drop (en - base)) en

def finditer (r : Re) (s : List Char) : List (Nat × Caps × Nat) :=
  finditerAux r (s.length + 1) s 0

/-- re.sub of a list of literal alternatives by the empty string, scanning left
to right, case-insensitively; fueled by the input length. -/
def reSubAlts (alts : List (List Char)) : Nat → List Char → List Char
  | 0, s => s
  | _ + 1, [] => []
  | fuel + 1, c :: rest =>
    match firstSome alts (fun a => stripLit true a (c :: rest)) with
    | some rem => reSubAlts alts fuel rem
    | none => c :: reSubAlts alts fuel rest

/-- Concatenation of a list of pattern pieces. -/
def seqAll : List Re → Re
  | [] => .lit false []
  | [r] => r
  | r :: rs => .cat r (seqAll rs)

/-- Literal compiled with re.IGNORECASE. -/
def litCI (s : String) : Re := .lit true s.data

/-- Case-sensitive literal. -/
def litCS (s : String) : Re := .lit false s.data

/-!  The five entries of MessageParser.PATTERNS, compiled with
re.DOTALL | re.IGNORECASE.  Group 1 and 2 are the lazy (.+?) captures and
group 3 is the numeric capture (\d+\.?\d*). -/

/-- Pattern 1: Corrida:\s*(.+?)\s*\n.*?Cavalo:\s*(.+?)\s*\n.*?Odds:\s*(\d+\.?\d*) -/
def pat1 : Re := seqAll
  [litCI "Corrida:", .starG .ws, .grp 1 (.plusL .dotAll), .starG .ws, litCI "\n",
   .starL .dotAll, litCI "Cavalo:", .starG .ws, .grp 2 (.plusL .dotAll), .starG .ws, litCI "\n",
   .starL .dotAll, litCI "Odds:", .starG .ws, .num 3]

/-- Pattern 2: Aposta:\s*(.+?)\s*-\s*(.+?)\s*@\s*(\d+\.?\d*) -/
def pat2 : Re := seqAll
  [litCI "Aposta:", .starG .ws, .grp 1 (.plusL .dotAll), .starG .ws, litCI "-",
   .starG .ws, .grp 2 (.plusL .dotAll), .starG .ws, litCI "@", .starG .ws, .num 3]

/-- Pattern 3: Corrida\s*(.+?)\s*:\s*(.+?)\s*\((\d+\.?\d*)\) -/
def pat3 : Re := seqAll
  [litCI "Corrida", .starG .ws, .grp 1 (.plusL .dotAll), .starG .ws, litCI ":",
   .starG .ws, .grp 2 (.plusL .dotAll), .starG .ws, litCI "(", .num 3, litCI ")"]

/-- Pattern 4: (?:Apostar em|Bet on)?\s*(.+?)\s*(?:na corrida|in race)\s*(.+?)\s*(?:@|odds)\s*(\d+\.?\d*) -/
def pat4 : Re := seqAll
  [.quest (.alt (litCI "Apostar em") (litCI "Bet on")), .starG .ws,
   .grp 1 (.plusL .dotAll), .starG .ws, .alt (litCI "na corrida") (litCI "in race"),
   .starG .ws, .grp 2 (.plusL .dotAll), .starG .ws, .alt (litCI "@") (litCI "odds"),
   .starG .ws, .num 3]

/-- Pattern 5: (?:Corrida|Race)\s*(.+?)\s*(?:cavalo|horse)\s*(.+?)\s*(?:@|odds)\s*(\d+\.?\d*) -/
def pat5 : Re := seqAll
  [.alt (litCI "Corrida") (litCI "Race"), .starG .ws, .grp 1 (.plusL .dotAll),
   .starG .ws, .alt (litCI "cavalo") (litCI "horse"), .starG .ws,
   .grp 2 (.plusL .dotAll), .starG .ws, .alt (litCI "@") (litCI "odds"),
   .starG .ws, .num 3]

/-- The ordered pattern list.  The boolean records whether the parser swaps the
first two groups, which the code decides by testing whether the pattern text
contains "na corrida" or "in race"; that is true exactly for pattern 4. -/
def patternList : List (Re × Bool) :=
  [(pat1, false), (pat2, false), (pat3, false), (pat4, true), (pat5, false)]

/-- Secondary stake pattern (?:Stake|stake|STAKE):\s*(\d+\.?\d*), re.IGNORECASE. -/
def stakeRe : Re := seqAll
  [.alt (litCI "Stake") (.alt (litCI "stake") (litCI "STAKE")), litCI ":",
   .starG .ws, .num 1]

/-- Secondary bet-type pattern (?:Tipo|tipo|TYPE|type):\s*(.+?)(?:\n|$),
re.IGNORECASE, without re.DOTALL. -/
def typeRe : Re := seqAll
  [.alt (litCI "Tipo") (.alt (litCI "tipo") (.alt (litCI "TYPE") (litCI "type"))),
   litCI ":", .starG .ws, .grp 1 (.plusL .dotNoNL), .alt (litCI "\n") .eol]

/-- Bare numeric search pattern (\d+\.?\d*) used by the keyword-proximity tier. -/
def flexNumRe : Re := Re.num 1

/-- Last-resort pattern @\s*(\d+\.?\d*) used with re.finditer. -/
def lastRe : Re := seqAll [litCS "@", .starG .ws, .num 1]

/-- The dataclass BetData of parser.py.  Python floats are modeled as exact
rationals and the extraction timestamp datetime.now() by its ISO text, supplied
to the parser as an explicit argument. -/
structure BetData where
  race : String
  horse_name : String
  odds : PyFloat
  stake : Option PyFloat := none
  bet_type : String := "win"
  raw_message : String := ""
  status : String := "pending"
  created_at : Option String := none
deriving DecidableEq, Repr

/-- Reads numeric capture i from the captures and converts it with float(),
optionally applying .strip() first, exactly as the parser does. -/
def oddsOfCaps (caps : Caps) (i : Nat) (strip : Bool) : Option PyFloat :=
  match capsNum caps i with
  | none => none
  | some n => parsePyFloat (if strip then pyStrip n.val else n.val)

/-- Stake extraction: float(stake_match.group(1)) if stake_match else None.
The outer none models an exception (which would abort the pattern tier); the
inner option is the stake value. -/
def stakeOf (msg : List Char) : Option (Option PyFloat) :=
  match searchTop stakeRe msg with
  | none => some none
  | some c =>
    match oddsOfCaps c 1 false with
    | none => none
    | some q => some (some q)

/-- Bet-type extraction: bet_type_match.group(1).strip() if matched else "win". -/
def betTypeOf (msg : List Char) : String :=
  match searchTop typeRe msg with
  | none => "win"
  | some c => ⟨pyStrip ((capsStr c 1).getD [])⟩

/-- One iteration of the PATTERNS loop of parse_message: search the pattern,
read the three groups (swapped for pattern 4), convert odds with float, and do
the secondary stake and bet-type extraction.  Any failure is the tier's
silent fallthrough. -/
def tryPattern (msg : List Char) (raw now : String) (pr : Re × Bool) : Option BetData :=
  match searchTop pr.1 msg with
  | none => none
  | some caps =>
    match capsStr caps 1, capsStr caps 2 with
    | some g1, some g2 =>
      match oddsOfCaps caps 3 true with
      | none => none
      | some odds =>
        match stakeOf msg with
        | none => none
        | some stake =>
          some { race := ⟨if pr.2 then pyStrip g2 else pyStrip g1⟩,
                 horse_name := ⟨if pr.2 then pyStrip g1 else pyStrip g2⟩,
                 odds := odds, stake := stake, bet_type := betTypeOf msg,
                 raw_message := raw, created_at := some now }
    | _, _ => none

/-- The labeled-pattern tier: first pattern that yields a record wins. -/
def parseTier1 (msg now : String) : Option BetData :=
  firstSome patternList (tryPattern msg.data msg now)

/-- Value extraction from a keyword line in the flexible tier: the text after
the first colon when the line has one, else the line with the keyword removed
by re.sub, stripped either way. -/
def flexValue (alts : List (List Char)) (line : List Char) : List Char :=
  if line.contains ':' then pyStrip (afterColon line)
  else pyStrip (reSubAlts alts line.length line)

/-- Odds extraction in the flexible tier: search the first odds line for the
bare numeric pattern and convert with float(); None when there is no odds line
or no match. -/
def flexOdds (oddsLines : List (List Char)) : Option PyFloat :=
  match oddsLines with
  | [] => none
  | o0 :: _ =>
    match searchTop flexNumRe o0 with
    | none => none
    | some c => oddsOfCaps c 1 false

/-- The keyword-proximity fallback tier of parse_message. -/
def parseFlexible (msg now : String) : Option BetData :=
  let s := msg.data
  let ml := s.map lowerChar
  if (containsSub ml "cavalo".data || containsSub ml "horse".data) &&
     (containsSub ml "corrida".data || containsSub ml "race".data) then
    let lines := splitOnPred (fun c => c = '\n') s
    let lower := fun (l : List Char) => l.map lowerChar
    let horseLines := lines.filter
      (fun l => containsSub (lower l) "cavalo".data || containsSub (lower l) "horse".data)
    let raceLines := lines.filter
      (fun l => containsSub (lower l) "corrida".data || containsSub (lower l) "race".data)
    let oddsLines := lines.filter
      (fun l => containsSub (lower l) "odds".data || containsSub l "@".data)
    match horseLines, raceLines with
    | h0 :: _, r0 :: _ =>
      let horse := flexValue ["cavalo".data, "horse".data] h0
      let race := flexValue ["corrida".data, "race".data] r0
      match flexOdds oddsLines with
      | some q =>
        if horse.isEmpty || race.isEmpty || q.num == 0 then none
        else some { race := ⟨race⟩, horse_name := ⟨horse⟩, odds := q,
                    raw_message := msg, created_at := some now }
      | none => none
    | _, _ => none
  else none

/-- The last-resort windowed tier of parse_message: for each @number match,
take a 100-character window each side, split into words, drop words of length
at most 2, and if at least 4 words remain slice out race and horse names. -/
def parseLastResort (msg now : String) : Option BetData :=
  let s := msg.data
  firstSome (finditer lastRe s) (fun m =>
    match oddsOfCaps m.2.1 1 false with
    | none => none
    | some odds =>
      let startPos := m.1 - 100
      let endPos := min s.length (m.2.2 + 100)
      let context := (s.take endPos).drop startPos
      let words := (splitOnPred isSplitChar context).filter (fun w => w.length > 2)
      if 4 ≤ words.length then
        some { race := ⟨joinSpace (words.take 2)⟩,
               horse_name := ⟨joinSpace ((words.drop (words.length / 2 - 2)).take 2)⟩,
               odds := odds, raw_message := msg, created_at := some now }
      else none)

/-- MessageParser.parse_message: the three tiers in order; null when no tier
succeeds. -/
def parse_message (msg now : String) : Option BetData :=
  match parseTier1 msg now with
  | some b => some b
  | none =>
    match parseFlexible msg now with
    | some b => some b
    | none => parseLastResort msg now

/-!  The classifier is_bet_message. -/

/-- The keyword list of is_bet_message. -/
def bet_keywords : List String :=
  ["aposta", "corrida", "cavalo", "odds", "stake",
   "bet", "race", "horse", "win", "place", "show",
   "jockey", "hipódromo", "track", "pista", "jóquei"]

/-- Number of keywords occurring in the lower-cased text. -/
def keyword_count (msg : String) : Nat :=
  (bet_keywords.filter (fun k => containsSub (msg.data.map lowerChar) k.data)).length

/-- The eight odds-shaped token patterns of is_bet_message, searched in the
lower-cased text. -/
def odds_patterns : List Re :=
  [seqAll [litCS "@", .starG .ws, .num 1],
   seqAll [.num 1, .starG .ws, litCS "@"],
   seqAll [litCS "odds", .starG .ws, .num 1],
   seqAll [.num 1, .starG .ws, litCS "odds"],
   seqAll [litCS "odds:", .starG .ws, .num 1],
   seqAll [litCS "(", .starG .ws, .num 1, .starG .ws, litCS ")"],
   seqAll [litCS "cotação", .starG .ws, .num 1],
   seqAll [litCS "cota", .starG .ws, .num 1]]

/-- Whether some odds-shaped token is present. -/
def has_odds_token (msg : String) : Bool :=
  odds_patterns.any (fun p => (searchSpanAux p (msg.data.map lowerChar) 0).isSome)

/-- The structured labels of is_bet_message. -/
def specific_labels : List String :=
  ["corrida:", "cavalo:", "aposta:", "race:", "horse:", "bet:"]

/-- Whether a structured label occurs in the lower-cased text. -/
def has_specific_label (msg : String) : Bool :=
  specific_labels.any (fun l => containsSub (msg.data.map lowerChar) l.data)

/-- Whether the message spans several lines. -/
def has_structured_format (msg : String) : Bool :=
  msg.data.contains '\n'

/-- The length floor len(text) > 10. -/
def min_length_ok (msg : String) : Bool :=
  decide (10 < msg.data.length)

/-- is_bet_message of parser.py: three weighted criteria and the length floor. -/
def is_bet_message (msg : String) : Bool :=
  ((decide (2 ≤ keyword_count msg) && has_odds_token msg) ||
   (decide (1 ≤ keyword_count msg) && has_odds_token msg && has_specific_label msg) ||
   (has_structured_format msg && has_odds_token msg && decide (1 ≤ keyword_count msg))) &&
  min_length_ok msg

/-- The classifier criteria exactly as the specification states them: at least
two keywords, or at least one keyword together with a structured label; an
odds-shaped token present; and the length floor.  Stated for comparison with
is_bet_message. -/
def c5_claimed_criteria (msg : String) : Bool :=
  ((decide (2 ≤ keyword_count msg) ||
    (decide (1 ≤ keyword_count msg) && has_specific_label msg)) && has_odds_token msg) &&
  min_length_ok msg

/-- The classifier criteria amended with the third acceptance route the code
has: a multi-line message with at least one keyword and an odds token. -/
def c5_amended_criteria (msg : String) : Bool :=
  ((decide (2 ≤ keyword_count msg) ||
    (decide (1 ≤ keyword_count msg) && has_specific_label msg) ||
    (has_structured_format msg && decide (1 ≤ keyword_count msg))) && has_odds_token msg) &&
  min_length_ok msg

/-!  manager.py: queue payloads, normalization, callback dispatch, start. -/

/-- A bet payload travelling through the intake queue (asyncio.Queue).  The
producers of the queue only ever enqueue dictionaries (the monitor handler's
dict or BetData.to_dict()); a field some v models the key being present with
value v, none models an absent key.  These are exactly the keys the consumer
reads. -/
structure Payload where
  race : Option String := none
  horse_name : Option String := none
  odds : Option PyFloat := none
  stake : Option (Option PyFloat) := none
  bet_type : Option String := none
  raw_message : Option String := none
  status : Option String := none
  created_at : Option (Option String) := none
deriving DecidableEq, Repr

/-- BetData.to_dict of parser.py: every key is present; created_at is the ISO
text when set and None otherwise (created_at is already modeled as ISO text). -/
def BetData.to_dict (b : BetData) : Payload :=
  { race := some b.race, horse_name := some b.horse_name, odds := some b.odds,
    stake := some b.stake, bet_type := some b.bet_type,
    raw_message := some b.raw_message, status := some b.status,
    created_at := some b.created_at }

/-- The dictionary branch of _process_bet_queue: rebuild a BetData from the
dequeued mapping with bet_data.get defaults.  The constructor call passes no
created_at, so the dataclass default None applies. -/
def normalizeBet (d : Payload) : BetData :=
  { race := d.race.getD "", horse_name := d.horse_name.getD "",
    odds := d.odds.getD ⟨0, 1⟩, stake := d.stake.getD none,
    bet_type := d.bet_type.getD "win", raw_message := d.raw_message.getD "",
    status := d.status.getD "pending" }

/-- Outcome of one callback invocation as the processing loop sees it: normal
return, or an exception that the loop catches and logs. -/
inductive CbOutcome where
  | ok
  | caught (e : String)
deriving DecidableEq, Repr

/-- A registered callback; Except.error models a raised exception. -/
abbrev Callback : Type := BetData → Except String Unit

/-- Converts a callback result to the loop-observed outcome. -/
def toOutcome : Except String Unit → CbOutcome
  | .ok _ => .ok
  | .error e => .caught e

/-- The callback loop of _process_bet_queue: every registered callback is
invoked, in registration order; an exception is caught and logged and the loop
moves on to the next callback. -/
def notifyCallbacks : List Callback → BetData → List CbOutcome
  | [], _ => []
  | cb :: rest, b => toOutcome (cb b) :: notifyCallbacks rest b

/-- One iteration of _process_bet_queue on a non-empty queue: dequeue the next
payload, normalize it, notify every callback, and mark the item done.  The
item is consumed exactly once and is not requeued; none models the loop
idling on an empty queue. -/
def processQueueStep (cbs : List Callback) : List Payload → Option (List Payload × List CbOutcome)
  | [] => none
  | d :: rest => some (rest, notifyCallbacks cbs (normalizeBet d))

/-!  monitor.py / manager.py start(). -/

/-- Truthiness of an optional credential string (None and "" are falsy). -/
def credTruthy : Option String → Bool
  | none => false
  | some s => decide (s ≠ "")

/-- The guard of TelegramMonitor.start: not all([api_id, api_hash, group_id])
returns False before any connection attempt. -/
def monitor_credentials_ok (api_id api_hash group_id : Option String) : Bool :=
  credTruthy api_id && credTruthy api_hash && credTruthy group_id

/-- TelegramMonitor.start: False when credentials are missing; otherwise the
outcome of the external Telethon connection, abstracted as connect_ok. -/
def monitor_start (api_id api_hash group_id : Option String) (connect_ok : Bool) : Bool :=
  if monitor_credentials_ok api_id api_hash group_id then connect_ok else false

/-- TelegramManager.start: registers the queue handler, spawns the monitor and
the queue processor as background tasks whose results are discarded, and
returns True unconditionally; the credentials and the connection outcome are
never consulted. -/
def manager_start (_api_id _api_hash _group_id : Option String) (_connect_ok : Bool) : Bool :=
  true

/-!  schemas.py: the persistence-layer Bet dataclass with to_dict / from_dict.
Datetimes are modeled by their ISO text (wrapped so that a datetime and a str
are distinguishable), and a result dict by its JSON serialization, on which
json.dumps and json.loads are the identity. -/

namespace Schemas

/-- A datetime value, modeled by its ISO text. -/
structure DT where
  iso : String
deriving DecidableEq, Repr

/-- datetime.isoformat. -/
def isoformat (d : DT) : String := d.iso

/-- datetime.fromisoformat(s.replace("Z", "+00:00")). -/
def fromisoformat (s : String) : DT := ⟨s.replace "Z" "+00:00"⟩

/-- A JSON object value, modeled by its serialized text; "\x7b\x7d" is the
empty (falsy) dict. -/
structure JObj where
  text : String
deriving DecidableEq, Repr

/-- The serialized empty dict, the only falsy dict value. -/
def emptyJObj : JObj := ⟨"\x7b\x7d"⟩

/-- json.dumps on this representation. -/
def json_dumps (o : JObj) : String := o.text

/-- json.loads on a string produced by json_dumps. -/
def json_loads (s : String) : JObj := ⟨s⟩

/-- The Bet dataclass of schemas.py (well-typed instances). -/
structure Bet where
  race : String
  horse_name : String
  odds : PyFloat
  stake : Option PyFloat := none
  bet_type : String := "win"
  raw_message : String := ""
  status : String := "pending"
  created_at : Option DT := none
  updated_at : Option DT := none
  result : Option JObj := none
  id : Option String := none
deriving DecidableEq, Repr

/-- The value stored under "result" in the dictionary: either the json.dumps
text (truthy dict) or the dict object itself (falsy dict left unserialized). -/
inductive ResultField where
  | asStr (s : String)
  | asObj (o : JObj)
deriving DecidableEq, Repr

/-- The dictionary produced by Bet.to_dict.  Every dataclass field is a key
(asdict), except that the id key is deleted when id is None; the id field
some v therefore models the key being present with value v. -/
structure BetDict where
  race : String
  horse_name : String
  odds : PyFloat
  stake : Option PyFloat
  bet_type : String
  raw_message : String
  status : String
  created_at : Option String
  updated_at : Option String
  result : Option ResultField
  id : Option String
deriving DecidableEq, Repr

/-- Bet.to_dict: asdict, ISO-format the datetimes, dumps a truthy result,
delete a None id. -/
def Bet.to_dict (b : Bet) : BetDict :=
  { race := b.race, horse_name := b.horse_name, odds := b.odds,
    stake := b.stake, bet_type := b.bet_type, raw_message := b.raw_message,
    status := b.status,
    created_at := b.created_at.map isoformat,
    updated_at := b.updated_at.map isoformat,
    result := match b.result with
      | none => none
      | some o => if o = emptyJObj then some (.asObj o) else some (.asStr (json_dumps o)),
    id := b.id }

/-- Bet.from_dict: parse ISO strings back to datetimes, loads a string result,
construct the dataclass.  A falsy "" string under a datetime key would be left
as a raw string by Python; no datetime serializes to "", and from_dict is only
applied here to to_dict images, so that branch is modeled as None. -/
def Bet.from_dict (d : BetDict) : Bet :=
  { race := d.race, horse_name := d.horse_name, odds := d.odds,
    stake := d.stake, bet_type := d.bet_type, raw_message := d.raw_message,
    status := d.status,
    created_at := match d.created_at with
      | none => none
      | some s => if s = "" then none else some (fromisoformat s),
    updated_at := match d.updated_at with
      | none => none
      | some s => if s = "" then none else some (fromisoformat s),
    result := match d.result with
      | none => none
      | some (.asStr s) => if s = "" then none else some (json_loads s)
      | some (.asObj o) => some o,
    id := d.id }

end Schemas

/-!  Supporting lemmas. -/

/-- Members of a dropWhile are members of the list. -/
theorem mem_of_mem_dropWhile {p : Char → Bool} {c : Char} :
    ∀ {l : List Char}, c ∈ l.dropWhile p → c ∈ l := by
  intro l h
  induction l with
  | nil => simp at h
  | cons a t ih =>
    rw [List.dropWhile_cons] at h
    by_cases hp : p a
    · simp only [hp, if_true] at h
      exact List.mem_cons_of_mem _ (ih h)
    · simp only [hp, if_false] at h
      exact h

/-- str.strip only removes characters. -/
theorem mem_of_mem_pyStrip {c : Char} {s : List Char} (h : c ∈ pyStrip s) : c ∈ s := by
  unfold pyStrip at h
  rw [List.mem_reverse] at h
  have h2 := mem_of_mem_dropWhile h
  rw [List.mem_reverse] at h2
  exact mem_of_mem_dropWhile h2

/-- Every character of a numeric capture is a digit or a dot. -/
theorem numShape_chars {g : List Char} (h : numShape g = true) :
    ∀ c ∈ g, c.isDigit = true ∨ c = '.' := by
  unfold numShape at h
  rw [Bool.and_eq_true] at h
  obtain ⟨_, h2⟩ := h
  intro c hc
  rw [← List.takeWhile_append_dropWhile (p := Char.isDigit) (l := g), List.mem_append] at hc
  rcases hc with hc | hc
  · exact Or.inl (List.mem_takeWhile_imp hc)
  · cases hd : g.dropWhile Char.isDigit with
    | nil => rw [hd] at hc; cases hc
    | cons c0 fs =>
      rw [hd] at hc h2
      rw [Bool.and_eq_true] at h2
      obtain ⟨hdot, hall⟩ := h2
      rcases List.mem_cons.mp hc with hc | hc
      · subst hc
        exact Or.inr (by simpa using hdot)
      · exact Or.inl (by simpa using (List.all_eq_true.mp hall) c hc)

/-- The magnitude part of float() is never negative. -/
theorem pyFloatMag_nonneg {u : List Char} {q : PyFloat} (h : pyFloatMag u = some q) :
    0 ≤ q.num := by
  simp only [pyFloatMag] at h
  split at h
  · split at h
    · cases h
    · cases h
      exact Int.ofNat_nonneg _
  · split at h
    · cases h
      exact Int.ofNat_nonneg _
    · cases h

/-- float() of a string of digits and dots is never negative. -/
theorem parsePyFloat_nonneg {s : List Char} (hs : ∀ c ∈ s, c.isDigit = true ∨ c = '.')
    {q : PyFloat} (h : parsePyFloat s = some q) : 0 ≤ q.num := by
  have hsub : ∀ c ∈ pyStrip s, c.isDigit = true ∨ c = '.' :=
    fun c hc => hs c (mem_of_mem_pyStrip hc)
  unfold parsePyFloat at h
  split at h
  · exact pyFloatMag_nonneg h
  next r heq =>
    exfalso
    have hmem : ('-' : Char) ∈ pyStrip s := by rw [heq]; exact List.mem_cons_self _ _
    rcases hsub _ hmem with hd | hd <;> simp at hd
  · exact pyFloatMag_nonneg h

/-- A nonnegative numerator gives a nonnegative value. -/
theorem PyFloat.toRat_nonneg {q : PyFloat} (h : 0 ≤ q.num) : 0 ≤ q.toRat := by
  unfold PyFloat.toRat
  apply div_nonneg
  · exact_mod_cast h
  · positivity

/-- Every float value read off a numeric capture is nonnegative: the captured
text consists of digits and at most one dot, with or without the strip. -/
theorem oddsOfCaps_nonneg {caps : Caps} {i : Nat} {st : Bool} {q : PyFloat}
    (h : oddsOfCaps caps i st = some q) : 0 ≤ q.toRat := by
  unfold oddsOfCaps at h
  split at h
  · cases h
  next n _ =>
    apply PyFloat.toRat_nonneg
    apply parsePyFloat_nonneg _ h
    intro c hc
    apply numShape_chars n.property
    cases st with
    | true => exact mem_of_mem_pyStrip (by simpa using hc)
    | false => simpa using hc

/-- firstSome succeeds only through one of its candidates. -/
theorem firstSome_eq_some {α β : Type} {l : List α} {f : α → Option β} {b : β}
    (h : firstSome l f = some b) : ∃ a, a ∈ l ∧ f a = some b := by
  induction l with
  | nil => cases h
  | cons a t ih =>
    rw [firstSome] at h
    split at h
    next v heq =>
      cases h
      exact ⟨a, List.mem_cons_self _ _, heq⟩
    next =>
      obtain ⟨x, hx, hfx⟩ := ih h
      exact ⟨x, List.mem_cons_of_mem _ hx, hfx⟩

/-- A nonempty list of chars prefixed into a string is not the empty string. -/
theorem stringMk_ne_empty {l : List Char} (h : l ≠ []) : (⟨l⟩ : String) ≠ "" := by
  intro he
  apply h
  simpa using congrArg String.data he

/-- Joining a nonempty list of nonempty words is nonempty. -/
theorem joinSpace_ne_nil {l : List (List Char)} (hl : l ≠ []) (h2 : ∀ w ∈ l, w ≠ []) :
    joinSpace l ≠ [] := by
  match l with
  | [] => exact absurd rfl hl
  | [w] => simpa [joinSpace] using h2 w (by simp)
  | w :: x :: t =>
    simp only [joinSpace]
    intro he
    rcases List.append_eq_nil.mp he with ⟨_, h⟩
    cases h

/-- The two word slices taken by the last-resort tier are nonempty whenever at
least four filtered words remain. -/
theorem lastResort_names_ne_nil {words : List (List Char)}
    (hlen : ∀ w ∈ words, 2 < w.length) (hw : 4 ≤ words.length) :
    joinSpace (words.take 2) ≠ [] ∧
      joinSpace ((words.drop (words.length / 2 - 2)).take 2) ≠ [] := by
  have hmemne : ∀ w ∈ words, w ≠ [] := by
    intro w hwmem
    have := hlen w hwmem
    intro hnil
    rw [hnil] at this
    simp at this
  constructor
  · apply joinSpace_ne_nil
    · match words with
      | [] => simp at hw
      | w :: t => simp [List.take]
    · intro w hwmem
      exact hmemne w (List.mem_of_mem_take hwmem)
  · apply joinSpace_ne_nil
    · have hk : words.length / 2 - 2 < words.length := by omega
      have hdrop : words.drop (words.length / 2 - 2) ≠ [] := by
        rw [Ne, List.drop_eq_nil_iff]
        omega
      match hd : words.drop (words.length / 2 - 2) with
      | [] => exact absurd hd hdrop
      | w :: t => simp [List.take]
    · intro w hwmem
      exact hmemne w (List.mem_of_mem_drop (List.mem_of_mem_take hwmem))

/-- Any record produced by one iteration of the PATTERNS loop has nonnegative
odds: group 3 is the unsigned numeric capture. -/
theorem tryPattern_odds_nonneg {msg : List Char} {raw now : String} {pr : Re × Bool}
    {b : BetData} (h : tryPattern msg raw now pr = some b) : 0 ≤ b.odds.toRat := by
  unfold tryPattern at h
  split at h
  · cases h
  · split at h
    · split at h
      · cases h
      next heq =>
        split at h
        · cases h
        · cases h
          exact oddsOfCaps_nonneg heq
    · cases h

/-- Any record produced by the labeled-pattern tier has nonnegative odds. -/
theorem parseTier1_odds_nonneg {msg now : String} {b : BetData}
    (h : parseTier1 msg now = some b) : 0 ≤ b.odds.toRat := by
  rw [parseTier1] at h
  obtain ⟨pr, _, hpr⟩ := firstSome_eq_some h
  exact tryPattern_odds_nonneg hpr

/-- Any record produced by the keyword-proximity tier has nonnegative odds and
nonempty race and horse_name: the truthiness guard rejects empty names and a
zero odds value. -/
theorem flexOdds_nonneg {oddsLines : List (List Char)} {q : PyFloat}
    (h : flexOdds oddsLines = some q) : 0 ≤ q.toRat := by
  unfold flexOdds at h
  split at h
  · cases h
  · split at h
    · cases h
    · exact oddsOfCaps_nonneg h

theorem parseFlexible_inv {msg now : String} {b : BetData}
    (h : parseFlexible msg now = some b) :
    0 ≤ b.odds.toRat ∧ b.race ≠ "" ∧ b.horse_name ≠ "" := by
  simp only [parseFlexible] at h
  split at h
  · split at h
    next h0 t0 r0 tr0 =>
      split at h
      next q heq =>
        split at h
        · cases h
        next hguard =>
          cases h
          simp only [Bool.or_eq_true, not_or, Bool.not_eq_true] at hguard
          obtain ⟨⟨hh, hr⟩, _⟩ := hguard
          refine ⟨flexOdds_nonneg heq, ?_, ?_⟩
          · exact stringMk_ne_empty (by simpa [List.isEmpty_iff] using hr)
          · exact stringMk_ne_empty (by simpa [List.isEmpty_iff] using hh)
      · cases h
    · cases h
  · cases h

/-- Any record produced by the last-resort tier has nonnegative odds and
nonempty race and horse_name. -/
theorem parseLastResort_inv {msg now : String} {b : BetData}
    (h : parseLastResort msg now = some b) :
    0 ≤ b.odds.toRat ∧ b.race ≠ "" ∧ b.horse_name ≠ "" := by
  simp only [parseLastResort] at h
  obtain ⟨m, _, hm⟩ := firstSome_eq_some h
  split at hm
  · cases hm
  next q heq =>
    split at hm
    next hw =>
      cases hm
      have hlen : ∀ w ∈ (splitOnPred isSplitChar
          (((msg.data.take (min msg.data.length (m.2.2 + 100))).drop (m.1 - 100)))).filter
          (fun w => w.length > 2), 2 < w.length := by
        intro w hwmem
        have := List.of_mem_filter hwmem
        exact of_decide_eq_true this
      have hnn := lastResort_names_ne_nil hlen hw
      exact ⟨oddsOfCaps_nonneg heq, stringMk_ne_empty hnn.1, stringMk_ne_empty hnn.2⟩
    · cases hm

/-!  Claim theorems. -/

/-- C1 counterexample: the claim says a message whose odds token is 0 is
rejected, but the labeled-pattern tier converts the captured "0" with float()
without any positivity check and returns a record whose odds value is zero. -/
theorem c1_counterexample :
    parse_message "Corrida: A\nCavalo: B\nOdds: 0" "t0" =
      some { race := "A", horse_name := "B", odds := ⟨0, 0⟩,
             raw_message := "Corrida: A\nCavalo: B\nOdds: 0", created_at := some "t0" } ∧
    (PyFloat.mk 0 0).toRat = 0 := by
  refine ⟨by decide, ?_⟩
  simp [PyFloat.toRat]

/-- C1 (amended): every record parse_message returns has nonnegative odds —
each tier reads its odds from an unsigned numeric capture — but odds may be
zero, as the counterexample shows. -/
theorem c1_amended_odds_nonneg :
    ∀ (msg now : String) (b : BetData), parse_message msg now = some b →
      0 ≤ b.odds.toRat := by
  intro msg now b h
  unfold parse_message at h
  split at h
  next heq =>
    cases h
    exact parseTier1_odds_nonneg heq
  next =>
    split at h
    next heq =>
      cases h
      exact (parseFlexible_inv heq).1
    next => exact (parseLastResort_inv h).1

/-- C1 witness: the amended theorem applied to a concrete labeled message. -/
theorem c1_witness :
    0 ≤ (BetData.mk "Derby" "Thunder" ⟨32, 1⟩ none "win"
          "Aposta: Derby - Thunder @ 3.2" "pending" (some "t0")).odds.toRat :=
  c1_amended_odds_nonneg "Aposta: Derby - Thunder @ 3.2" "t0"
    (BetData.mk "Derby" "Thunder" ⟨32, 1⟩ none "win"
      "Aposta: Derby - Thunder @ 3.2" "pending" (some "t0")) (by decide)

/-- C2 counterexample: the claim says race and horse_name are never empty in a
returned record, but pattern 1 can capture a whitespace-only group which strip
reduces to the empty string, and the record is returned anyway. -/
theorem c2_counterexample :
    parse_message "Corrida: \nCavalo: Y\nOdds: 2" "t0" =
      some { race := "", horse_name := "Y", odds := ⟨2, 0⟩,
             raw_message := "Corrida: \nCavalo: Y\nOdds: 2", created_at := some "t0" } := by
  decide

/-- C2 (amended): records returned by the keyword-proximity tier and by the
last-resort tier always have nonempty race and horse_name; only the
labeled-pattern tier can produce an empty name, as the counterexample shows. -/
theorem c2_amended_fallback_names_nonempty :
    ∀ (msg now : String) (b : BetData),
      parseFlexible msg now = some b ∨ parseLastResort msg now = some b →
      b.race ≠ "" ∧ b.horse_name ≠ "" := by
  intro msg now b h
  rcases h with h | h
  · exact (parseFlexible_inv h).2
  · exact (parseLastResort_inv h).2

/-- C2 witness: the amended theorem applied to a concrete message that the
keyword-proximity tier parses. -/
theorem c2_witness :
    (BetData.mk "City Cup" "Storm" ⟨25, 1⟩ none "win"
      "Race: City Cup\nHorse: Storm\nOdds: 2.5\nStake: 20\nType: win" "pending"
      (some "t0")).race ≠ "" ∧
    (BetData.mk "City Cup" "Storm" ⟨25, 1⟩ none "win"
      "Race: City Cup\nHorse: Storm\nOdds: 2.5\nStake: 20\nType: win" "pending"
      (some "t0")).horse_name ≠ "" :=
  c2_amended_fallback_names_nonempty
    "Race: City Cup\nHorse: Storm\nOdds: 2.5\nStake: 20\nType: win" "t0"
    (BetData.mk "City Cup" "Storm" ⟨25, 1⟩ none "win"
      "Race: City Cup\nHorse: Storm\nOdds: 2.5\nStake: 20\nType: win" "pending"
      (some "t0"))
    (Or.inl (by decide))

/-- C3 counterexample: the claim says secondary extraction is independent of
the matched tier and that Scenario A yields stake 20.0, but the English
Scenario A input matches none of the five labeled patterns, is parsed by the
keyword-proximity tier, which performs no stake or type extraction, and the
returned record has stake None. -/
theorem c3_counterexample :
    parse_message "Race: City Cup\nHorse: Storm\nOdds: 2.5\nStake: 20\nType: win" "t0" =
      some { race := "City Cup", horse_name := "Storm", odds := ⟨25, 1⟩, stake := none,
             raw_message := "Race: City Cup\nHorse: Storm\nOdds: 2.5\nStake: 20\nType: win",
             created_at := some "t0" } := by
  decide

/-- C3 (amended): stake and bet-type extraction happen only inside the
labeled-pattern tier.  A Portuguese-labeled analogue of Scenario A matches
pattern 1 and carries stake 20.0 and bet_type "win"; the English Scenario A
input is parsed by the keyword-proximity tier and carries stake None. -/
theorem c3_amended_secondary_extraction :
    parse_message "Corrida: City Cup\nCavalo: Storm\nOdds: 2.5\nStake: 20\nTipo: win" "t0" =
      some { race := "City Cup", horse_name := "Storm", odds := ⟨25, 1⟩,
             stake := some ⟨20, 0⟩,
             raw_message := "Corrida: City Cup\nCavalo: Storm\nOdds: 2.5\nStake: 20\nTipo: win",
             created_at := some "t0" } ∧
    parseFlexible "Race: City Cup\nHorse: Storm\nOdds: 2.5\nStake: 20\nType: win" "t0" =
      some { race := "City Cup", horse_name := "Storm", odds := ⟨25, 1⟩, stake := none,
             raw_message := "Race: City Cup\nHorse: Storm\nOdds: 2.5\nStake: 20\nType: win",
             created_at := some "t0" } ∧
    (PyFloat.mk 25 1).toRat = 2.5 ∧ (PyFloat.mk 20 0).toRat = 20 := by
  refine ⟨by decide, by decide, ?_, ?_⟩
  · simp [PyFloat.toRat]
    norm_num
  · simp [PyFloat.toRat]

/-- C4 counterexample: the claim says input "Bet: Derby - Thunder @ 3.2"
yields a record, but pattern 2 only matches the Portuguese label "Aposta:",
no other tier applies (no race or horse keyword; the windowed scan keeps only
three words), and parse_message returns null. -/
theorem c4_counterexample :
    parse_message "Bet: Derby - Thunder @ 3.2" "t0" = none := by
  decide

/-- C4 (amended): the compact labeled format uses the Portuguese label; on
"Aposta: Derby - Thunder @ 3.2" parse_message returns race "Derby",
horse_name "Thunder", odds 3.2, stake None and bet_type "win". -/
theorem c4_amended_scenario_b :
    parse_message "Aposta: Derby - Thunder @ 3.2" "t0" =
      some { race := "Derby", horse_name := "Thunder", odds := ⟨32, 1⟩,
             raw_message := "Aposta: Derby - Thunder @ 3.2", created_at := some "t0" } ∧
    (PyFloat.mk 32 1).toRat = 3.2 := by
  refine ⟨by decide, ?_⟩
  simp [PyFloat.toRat]
  norm_num

/-- C5 counterexample: a single-keyword, multi-line message with an odds token
and no structured label is accepted by is_bet_message through the
structured-format route, which the claim's criteria do not contain. -/
theorem c5_counterexample :
    is_bet_message "odds 2.5\nhello there" = true ∧
    c5_claimed_criteria "odds 2.5\nhello there" = false := by
  exact ⟨by decide, by decide⟩

/-- C5 (amended): is_bet_message is equivalent to the claimed criteria
extended with the third acceptance route: a multi-line message with at least
one keyword and an odds token. -/
theorem c5_amended_classifier_criteria :
    ∀ msg : String, is_bet_message msg = c5_amended_criteria msg := by
  intro msg
  unfold is_bet_message c5_amended_criteria
  generalize decide (2 ≤ keyword_count msg) = a
  generalize decide (1 ≤ keyword_count msg) = b
  generalize has_specific_label msg = c
  generalize has_odds_token msg = d
  generalize has_structured_format msg = e
  generalize min_length_ok msg = f
  revert a b c d e f
  decide

/-- C6: TelegramMonitor.start does return False when a connection parameter is
absent, but TelegramManager.start — the session manager the claim is about —
spawns the monitor as a background task, discards its result and returns True
unconditionally, contradicting its own docstring (True on success, False
otherwise) and the claim. -/
theorem c6_start_signal :
    (∀ (a h g : Option String) (c : Bool), manager_start a h g c = true) ∧
    monitor_start none none none false = false :=
  ⟨fun _ _ _ _ => rfl, rfl⟩

/-- C7: the callback loop invokes every registered callback exactly once per
item in registration order, a raised error is caught without affecting the
other callbacks, the dequeued item is consumed and not requeued, and the loop
continues; in particular with two callbacks where the second raises, the first
is still invoked exactly once. -/
theorem c7_callback_isolation :
    (∀ (cbs : List Callback) (b : BetData),
        notifyCallbacks cbs b = cbs.map (fun cb => toOutcome (cb b))) ∧
    (∀ (cbs : List Callback) (d : Payload) (rest : List Payload),
        processQueueStep cbs (d :: rest) = some (rest, notifyCallbacks cbs (normalizeBet d))) ∧
    (∀ (cb1 cb2 : Callback) (b : BetData) (e : String),
        cb2 b = Except.error e →
        notifyCallbacks [cb1, cb2] b = [toOutcome (cb1 b), CbOutcome.caught e]) := by
  refine ⟨?_, ?_, ?_⟩
  · intro cbs b
    induction cbs with
    | nil => rfl
    | cons cb rest ih => simp [notifyCallbacks, ih]
  · intro cbs d rest
    rfl
  · intro cb1 cb2 b e he
    simp [notifyCallbacks, he, toOutcome]

/-- C7 witness: the isolation theorem applied to concrete callbacks where the
second raises. -/
theorem c7_witness :
    notifyCallbacks [fun _ => Except.ok (), fun _ => Except.error "boom"]
        (normalizeBet {}) = [CbOutcome.ok, CbOutcome.caught "boom"] :=
  c7_callback_isolation.2.2 (fun _ => Except.ok ()) (fun _ => Except.error "boom")
    (normalizeBet {}) "boom" rfl

/-- C8 counterexample: a payload entering the queue with a created_at value is
normalized by the processing loop into a record whose created_at is None — the
constructor call in _process_bet_queue passes no created_at. -/
theorem c8_counterexample :
    (normalizeBet (BetData.to_dict
      { race := "A", horse_name := "B", odds := ⟨2, 0⟩,
        raw_message := "m", created_at := some "2025-01-01T00:00:00" })).created_at = none ∧
    (BetData.to_dict
      { race := "A", horse_name := "B", odds := ⟨2, 0⟩,
        raw_message := "m", created_at := some "2025-01-01T00:00:00" }).created_at =
      some (some "2025-01-01T00:00:00") :=
  ⟨rfl, rfl⟩

/-- C8 (amended): the payload produced at extraction always carries the
created_at key, but the dispatcher's normalization drops it: every normalized
record has created_at None, whatever the payload carried. -/
theorem c8_amended_normalize_drops_created_at :
    (∀ d : Payload, (normalizeBet d).created_at = none) ∧
    (∀ b : BetData, (BetData.to_dict b).created_at = some b.created_at) :=
  ⟨fun _ => rfl, fun _ => rfl⟩

/-- C9: one to_dict / from_dict cycle reproduces race, horse_name, odds, stake
and bet_type exactly — these fields pass through both conversions untouched. -/
theorem c9_roundtrip :
    ∀ b : Schemas.Bet,
      (Schemas.Bet.from_dict (Schemas.Bet.to_dict b)).race = b.race ∧
      (Schemas.Bet.from_dict (Schemas.Bet.to_dict b)).horse_name = b.horse_name ∧
      (Schemas.Bet.from_dict (Schemas.Bet.to_dict b)).odds = b.odds ∧
      (Schemas.Bet.from_dict (Schemas.Bet.to_dict b)).stake = b.stake ∧
      (Schemas.Bet.from_dict (Schemas.Bet.to_dict b)).bet_type = b.bet_type :=
  fun _ => ⟨rfl, rfl, rfl, rfl, rfl⟩

/-- C10: when the dequeued mapping lacks keys, normalization fills the fixed
defaults — empty race and horse_name, odds 0.0, bet_type "win", status
"pending" — and the resulting record, which violates the data-model
invariants, is handed to every callback without any error. -/
theorem c10_normalize_defaults :
    ∀ d : Payload, d.race = none → d.horse_name = none → d.odds = none →
      d.bet_type = none → d.status = none →
      (normalizeBet d).race = "" ∧ (normalizeBet d).horse_name = "" ∧
      (normalizeBet d).odds = ⟨0, 1⟩ ∧ (normalizeBet d).bet_type = "win" ∧
      (normalizeBet d).status = "pending" ∧ (PyFloat.mk 0 1).toRat = 0 ∧
      (∀ (cbs : List Callback) (rest : List Payload),
        processQueueStep cbs (d :: rest) = some (rest, notifyCallbacks cbs (normalizeBet d))) := by
  intro d h1 h2 h3 h4 h5
  refine ⟨?_, ?_, ?_, ?_, ?_, ?_, fun _ _ => rfl⟩
  · simp [normalizeBet, h1]
  · simp [normalizeBet, h2]
  · simp [normalizeBet, h3]
  · simp [normalizeBet, h4]
  · simp [normalizeBet, h5]
  · simp [PyFloat.toRat]

/-- C10 witness: the defaults theorem applied to the empty payload. -/
theorem c10_witness :
    (normalizeBet {}).race = "" ∧ (normalizeBet {}).horse_name = "" ∧
    (normalizeBet {}).odds = ⟨0, 1⟩ ∧ (normalizeBet {}).bet_type = "win" ∧
    (normalizeBet {}).status = "pending" ∧ (PyFloat.mk 0 1).toRat = 0 ∧
    (∀ (cbs : List Callback) (rest : List Payload),
      processQueueStep cbs ({} :: rest) = some (rest, notifyCallbacks cbs (normalizeBet {}))) :=
  c10_normalize_defaults {} rfl rfl rfl rfl rfl

end Rpa
